import Mathlib

/-!
Verification of `mr.developer`'s git backend (`src/mr/developer/git.py`).

The Python module shells out to the `git` executable and parses its textual
output.  We embed it shallowly: the outside world is a `World` (a function
from an argument vector plus working directory to a captured process result,
together with a file-existence oracle), and every method of
`GitWorkingCopy` becomes a Lean function threading a `WCState` (the source
descriptor, the accumulated stdout transcript `_git_stdout`, the memoized
git version, an instrumentation trace of every issued invocation, and the
log messages).  Outcomes distinguish a normal return, a raised Python
exception (`GitError`, `ValueError`, `NameError`) and `sys.exit`.

Byte/str parsing from the Python code is embedded over `List Char`
(Python `str.strip`, `split('\n')`, `split()`, substring tests, the
version regex, and the submodule `re.findall` pattern).
-/

namespace MrDeveloperGit

/-- Python exceptions raised by the embedded code. -/
inductive Exc where
  | gitError (msg : String)
  | valueError (msg : String)
  | nameError (nm : String)
deriving DecidableEq, Repr

/-- Outcome of running a method: normal return, raised exception, or
`sys.exit code`. -/
inductive Res (α : Type) where
  | ok (a : α)
  | err (e : Exc)
  | exited (code : Nat)
deriving DecidableEq, Repr

/-- Holds (`true`) on a raised `GitError`. -/
def Res.isGitError : Res α → Bool
  | .err (.gitError _) => true
  | _ => false

/-- Holds (`true`) on a normal return. -/
def Res.isOkRes : Res α → Bool
  | .ok _ => true
  | _ => false

/-- The source descriptor: the recognized keys of the configuration
mapping handed to `GitWorkingCopy`.  Optional keys are `Option`; the
undocumented `revision` alias accepted by `__init__` is kept as its own
field. -/
structure Source where
  name : String
  path : String
  url : String
  rev : Option String := none
  branch : Option String := none
  revision : Option String := none
  preferredBranches : Option (List String) := none
  pushurl : Option String := none
  depth : Option String := none
  submodules : Option String := none
deriving DecidableEq, Repr

/-- One external invocation: the argument vector handed to `git_run`
(the git executable itself is prepended by `git_run` and left implicit)
and the working directory (`cwd` keyword), if any. -/
structure GitCmd where
  args : List String
  cwd : Option String
deriving DecidableEq, Repr

/-- Captured result of one subprocess invocation. -/
structure RunResult where
  returncode : Int
  stdout : String
  stderr : String
deriving DecidableEq, Repr

/-- The outside world: what each invocation would return, and which paths
exist on disk. -/
structure World where
  exec : GitCmd → RunResult
  pathExists : String → Bool

/-- Mutable state of one `GitWorkingCopy` instance: the (mutated in place)
source descriptor, the `_git_stdout` transcript, the memoized
`git_version` result, plus instrumentation: the trace of issued
invocations and the emitted log messages. -/
structure WCState where
  source : Source
  gitStdout : List String
  versionCache : Option (List Nat)
  trace : List GitCmd
  log : List String

/-- The constant `GitWorkingCopy._upstream_name`. -/
def upstreamName : String := "origin"

/-! ### Python string primitives, over `List Char` -/

/-- Python whitespace for `str.strip` / `bytes.strip` / `\s`. -/
def pyWsChar (c : Char) : Bool :=
  c = ' ' || c = '\t' || c = '\n' || c = '\r' || c = '\x0b' || c = '\x0c'

/-- Python `s.strip()`: drop leading and trailing whitespace. -/
def stripL (cs : List Char) : List Char :=
  ((cs.dropWhile pyWsChar).reverse.dropWhile pyWsChar).reverse

/-- Python `s.split('\n')`: always at least one (possibly empty) piece. -/
def splitNl : List Char → List (List Char)
  | [] => [[]]
  | c :: rest =>
    if c = '\n' then [] :: splitNl rest
    else
      match splitNl rest with
      | l :: ls => (c :: l) :: ls
      | [] => [[c]]

/-- Whether `pat` occurs at the start of `cs`. -/
def startsWithL : List Char → List Char → Bool
  | [], _ => true
  | _ :: _, [] => false
  | p :: ps, c :: cs => p = c && startsWithL ps cs

/-- Python `pat in s`: substring containment. -/
def hasSubL (pat : List Char) : List Char → Bool
  | [] => pat.isEmpty
  | c :: rest => startsWithL pat (c :: rest) || hasSubL pat rest

/-- Helper for `splitWsL`, accumulating the current word reversed. -/
def splitWsAux : List Char → List Char → List (List Char)
  | acc, [] => if acc.isEmpty then [] else [acc.reverse]
  | acc, c :: rest =>
    if pyWsChar c then
      if acc.isEmpty then splitWsAux [] rest
      else acc.reverse :: splitWsAux [] rest
    else splitWsAux (c :: acc) rest

/-- Python `s.split()` with no argument: split on whitespace runs,
dropping empty pieces. -/
def splitWsL (cs : List Char) : List (List Char) := splitWsAux [] cs

/-! ### Core plumbing: `git_run` -/

/-- Join an argument vector with single spaces, as in the `GitError`
message of `git_run` (the prepended executable rendered as `git`). -/
def joinArgs (args : List String) : String :=
  (args.foldl (fun acc a => acc ++ " " ++ a) "git")

/-- Embeds `GitWorkingCopy.git_run`: issue one invocation, append its stdout to
`_git_stdout`, raise `GitError` on a non-zero exit status, return raw
stdout otherwise.  The instrumentation trace records the invocation
either way. -/
def gitRun (w : World) (st : WCState) (args : List String) (cwd : Option String) :
    Res String × WCState :=
  let r := w.exec ⟨args, cwd⟩
  let st' := { st with
    trace := st.trace ++ [⟨args, cwd⟩],
    gitStdout := st.gitStdout ++ [r.stdout] }
  if r.returncode ≠ 0 then
    (.err (.gitError (joinArgs args ++ "\n" ++ r.stdout ++ "\n" ++ r.stderr)), st')
  else
    (.ok r.stdout, st')

/-- Embeds `GitWorkingCopy.git_output`: the concatenated stdout transcript. -/
def gitOutput (st : WCState) : String := String.join st.gitStdout

/-! ### Status parsing (`GitWorkingCopy.status`) -/

/-- The pure classification at the heart of `status`: strip the raw
`git status -s -b` output, split it on newlines, and label it
`clean` / `ahead` / `dirty`. -/
def statusClassify (output : String) : String :=
  let lines := splitNl (stripL output.toList)
  if lines.length = 1 then
    if hasSubL "ahead".toList (lines.headD []) then "ahead" else "clean"
  else "dirty"

/-- Embeds `GitWorkingCopy.status` (the `verbose=False` path, which is the one
`update` uses): run `git status -s -b` in the source path and classify
its output. -/
def statusM (w : World) (st : WCState) : Res String × WCState :=
  match gitRun w st ["status", "-s", "-b"] (some st.source.path) with
  | (.ok out, st1) => (.ok (statusClassify out), st1)
  | (.err e, st1) => (.err e, st1)
  | (.exited c, st1) => (.exited c, st1)

/-! ### Version detection (`GitWorkingCopy.git_version`) -/

/-- Digits of a decimal numeral to a `Nat`, as Python `int` on a digit
string. -/
def digitsToNat (ds : List Char) : Nat :=
  ds.foldl (fun n c => n * 10 + (c.toNat - '0'.toNat)) 0

/-- Greedy `\d+`: the maximal digit run and the rest; `none` when the
first character is not a digit. -/
def takeDigits (cs : List Char) : Option (List Char × List Char) :=
  let ds := cs.takeWhile (fun c => c.isDigit)
  if ds.isEmpty then none else some (ds, cs.drop ds.length)

/-- The optional group `(\.\d+)?` of the version regex: a dot followed by
digits, or nothing. -/
def takeDotDigits (cs : List Char) : Option (List Char × List Char) :=
  match cs with
  | '.' :: rest =>
    match takeDigits rest with
    | some (ds, rest') => some (ds, rest')
    | none => none
  | _ => none

/-- Attempt the regex `git version (\d+)\.(\d+)(\.\d+)?(\.\d+)?` anchored
at the start of `cs`; the groups converted to integers as `git_version`
does. -/
def matchVersionAt (cs : List Char) : Option (List Nat) :=
  if startsWithL "git version ".toList cs then
    let rest := cs.drop "git version ".toList.length
    match takeDigits rest with
    | none => none
    | some (d1, r1) =>
      match r1 with
      | '.' :: r1' =>
        match takeDigits r1' with
        | none => none
        | some (d2, r2) =>
          match takeDotDigits r2 with
          | none => some [digitsToNat d1, digitsToNat d2]
          | some (d3, r3) =>
            match takeDotDigits r3 with
            | none => some [digitsToNat d1, digitsToNat d2, digitsToNat d3]
            | some (d4, _) =>
              some [digitsToNat d1, digitsToNat d2, digitsToNat d3,
                digitsToNat d4]
      | _ => none
  else none

/-- The `re.search` of the version regex: leftmost successful anchor
position. -/
def findVersion : List Char → Option (List Nat)
  | [] => matchVersionAt []
  | c :: rest =>
    match matchVersionAt (c :: rest) with
    | some v => some v
    | none => findVersion rest

/-- Python tuple `<` on integer tuples of possibly different lengths
(lexicographic, shorter-is-smaller on exhaustion). -/
def natListLt : List Nat → List Nat → Bool
  | [], [] => false
  | [], _ :: _ => true
  | _ :: _, [] => false
  | a :: as, b :: bs =>
    if a < b then true else if b < a then false else natListLt as bs

/-- Embeds `GitWorkingCopy.git_version`, with `common.memoize` embedded as the
`versionCache` field: run `git --version` once, parse it, terminate the
process on an invocation failure, an unparsable string, or a version
below `(1, 5)`. -/
def gitVersionM (w : World) (st : WCState) : Res (List Nat) × WCState :=
  match st.versionCache with
  | some v => (.ok v, st)
  | none =>
    match gitRun w st ["--version"] none with
    | (.err _, st1) =>
      (.exited 1, { st1 with log := st1.log ++ ["Could not determine git version"] })
    | (.exited c, st1) => (.exited c, st1)
    | (.ok out, st1) =>
      match findVersion out.toList with
      | none =>
        (.exited 1, { st1 with log := st1.log ++ ["Unable to parse git version output"] })
      | some v =>
        if natListLt v [1, 5] then
          (.exited 1, { st1 with log := st1.log ++ ["Git version is unsupported, please upgrade"] })
        else
          (.ok v, { st1 with versionCache := some v })

/-- Embeds `GitWorkingCopy._remote_branch_prefix`: `origin` below git 1.6.3,
`remotes/origin` from 1.6.3 on. -/
def remoteBranchPrefixM (w : World) (st : WCState) : Res String × WCState :=
  match gitVersionM w st with
  | (.ok v, st1) =>
    (.ok (if natListLt v [1, 6, 3] then upstreamName
      else "remotes/" ++ upstreamName), st1)
  | (.err e, st1) => (.err e, st1)
  | (.exited c, st1) => (.exited c, st1)

/-! ### Constructor (`GitWorkingCopy.__init__`) -/

/-- Embeds `GitWorkingCopy.__init__` on the source descriptor: reject a
duplicate `rev`/`revision` pair with `ValueError`, canonicalize
`revision` to `rev`, then terminate the process on a `branch`+`rev`
conflict.  Returns the (possibly mutated) descriptor, the invocations
issued (none), and the log messages. -/
def initGWC (source : Source) : Res Source × List GitCmd × List String :=
  if source.rev.isSome && source.revision.isSome then
    (.err (.valueError ("The source definition of '" ++ source.name ++
      "' contains duplicate revision options.")), [], [])
  else
    let source1 :=
      match source.revision with
      | some r => { source with rev := some r, revision := none }
      | none => source
    if source1.branch.isSome && source1.rev.isSome then
      (.exited 1, [],
        ["Cannot specify both branch and rev/revision in source for " ++
          source1.name])
    else
      (.ok source1, [], [])

/-! ### Branch inference -/

/-- Embeds `GitWorkingCopy.git_current_branch`: `git symbolic-ref --short HEAD`,
`none` when the query fails (for example on a detached head), the
stripped output otherwise. -/
def gitCurrentBranchM (w : World) (st : WCState) (cwd : Option String) :
    Res (Option String) × WCState :=
  match gitRun w st ["symbolic-ref", "--short", "HEAD"] cwd with
  | (.ok out, st1) => (.ok (some (String.mk (stripL out.toList))), st1)
  | (.err _, st1) => (.ok none, st1)
  | (.exited c, st1) => (.exited c, st1)

/-- The local-presence line pattern of `git_branch_status`:
`^(\*| ) branch$`, i.e. a line equal to `* branch` or `  branch`. -/
def isLocalLine (branch : String) (l : List Char) : Bool :=
  l = '*' :: ' ' :: branch.toList || l = ' ' :: ' ' :: branch.toList

/-- The remote-presence line pattern of `git_branch_status`:
`^  <remote-prefix>/branch$`. -/
def isRemoteLine (pfx branch : String) (l : List Char) : Bool :=
  l = ' ' :: ' ' :: (pfx.toList ++ '/' :: branch.toList)

/-- Embeds `GitWorkingCopy.git_branch_status`: parse `git branch -a` output for
local and remote presence of `branch`.  The remote check forces
`_remote_branch_prefix`, hence possibly the memoized version lookup. -/
def gitBranchStatusM (w : World) (st : WCState) (branch : String) :
    Res (Bool × Bool) × WCState :=
  match gitRun w st ["branch", "-a"] (some st.source.path) with
  | (.err e, st1) => (.err e, st1)
  | (.exited c, st1) => (.exited c, st1)
  | (.ok out, st1) =>
    let lines := splitNl out.toList
    let isLocal := lines.any (isLocalLine branch)
    match remoteBranchPrefixM w st1 with
    | (.err e, st2) => (.err e, st2)
    | (.exited c, st2) => (.exited c, st2)
    | (.ok pfx, st2) =>
      (.ok (isLocal, lines.any (isRemoteLine pfx branch)), st2)

/-- Embeds `GitWorkingCopy.auto_select_branch`: when no branch is configured but
a `preferred-branches` list is, read the current branch and, when it is
not preferred, rewrite the descriptor's `branch` to the first preferred
entry (the current branch itself otherwise). -/
def autoSelectBranchM (w : World) (st : WCState) : Res Unit × WCState :=
  match st.source.branch, st.source.preferredBranches with
  | some _, _ => (.ok (), st)
  | none, none => (.ok (), st)
  | none, some preferred =>
    match gitCurrentBranchM w st none with
    | (.ok none, st1) => (.ok (), st1)
    | (.ok (some current), st1) =>
      let chosen :=
        if !preferred.contains current && preferred.length ≠ 0 then
          preferred.headD current
        else current
      (.ok (), { st1 with
        source := { st1.source with branch := some chosen },
        log := st1.log ++ ["Auto-selecting branch " ++ chosen] })
    | (.err e, st1) => (.err e, st1)
    | (.exited c, st1) => (.exited c, st1)

/-! ### Merge and switch -/

/-- Embeds `GitWorkingCopy.git_merge_rbranch`: require the branch to exist both
locally and remotely; on a missing branch either log-and-return (when
`accept_missing`) or terminate the process; otherwise merge the
remote-tracking counterpart. -/
def gitMergeRbranchM (w : World) (st : WCState) (acceptMissing : Bool) :
    Res Unit × WCState :=
  let branch := st.source.branch.getD "master"
  match gitBranchStatusM w st branch with
  | (.err e, st1) => (.err e, st1)
  | (.exited c, st1) => (.exited c, st1)
  | (.ok (isLocal, isRemote), st1) =>
    if !isLocal || !isRemote then
      if acceptMissing then
        (.ok (), { st1 with log := st1.log ++ ["No such branch " ++ branch] })
      else
        (.exited 1, { st1 with log := st1.log ++ ["No such branch " ++ branch] })
    else
      match remoteBranchPrefixM w st1 with
      | (.err e, st2) => (.err e, st2)
      | (.exited c, st2) => (.exited c, st2)
      | (.ok pfx, st2) =>
        match gitRun w st2 ["merge", pfx ++ "/" ++ branch]
            (some st2.source.path) with
        | (.ok _, st3) => (.ok (), st3)
        | (.err e, st3) => (.err e, st3)
        | (.exited c, st3) => (.exited c, st3)

/-- Embeds `GitWorkingCopy.git_switch_branch`: position the working copy on the
requested rev (if any), else the local branch, else a new tracking
branch of the remote one, else either tolerate or raise on a missing
branch. -/
def gitSwitchBranchM (w : World) (st : WCState) (acceptMissing : Bool) :
    Res Unit × WCState :=
  let branch := st.source.branch.getD "master"
  match gitBranchStatusM w st branch with
  | (.err e, st1) => (.err e, st1)
  | (.exited c, st1) => (.exited c, st1)
  | (.ok (isLocal, isRemote), st1) =>
    match st1.source.rev with
    | some rev =>
      match gitRun w st1 ["checkout", rev] (some st1.source.path) with
      | (.ok _, st2) => (.ok (), st2)
      | (.err e, st2) => (.err e, st2)
      | (.exited c, st2) => (.exited c, st2)
    | none =>
      if isLocal then
        match gitRun w st1 ["checkout", branch] (some st1.source.path) with
        | (.ok _, st2) => (.ok (), st2)
        | (.err e, st2) => (.err e, st2)
        | (.exited c, st2) => (.exited c, st2)
      else if isRemote then
        match remoteBranchPrefixM w st1 with
        | (.err e, st2) => (.err e, st2)
        | (.exited c, st2) => (.exited c, st2)
        | (.ok pfx, st2) =>
          match gitRun w st2 ["checkout", "-b", branch, pfx ++ "/" ++ branch]
              (some st2.source.path) with
          | (.ok _, st3) => (.ok (), st3)
          | (.err e, st3) => (.err e, st3)
          | (.exited c, st3) => (.exited c, st3)
      else if acceptMissing then
        (.ok (), { st1 with log := st1.log ++ ["No such branch " ++ branch] })
      else
        (.err (.gitError ("No such branch " ++ branch)), st1)

/-! ### Submodules -/

/-- After the closing quote of the submodule pattern: match
`\s+\(.+\)` — at least one whitespace, an opening parenthesis, and a
greedy `.+` backtracked to the last closing parenthesis on the line with
at least one character inside.  Returns the rest after the match. -/
def matchParenTail (cs : List Char) : Option (List Char) :=
  let ws := cs.takeWhile pyWsChar
  if ws.isEmpty then none
  else
    match cs.drop ws.length with
    | '(' :: afterParen =>
      let seg := afterParen.takeWhile (fun c => c ≠ '\n')
      let closers := (List.range seg.length).filter
        (fun i => seg.getD i ' ' = ')')
      match closers.getLast? with
      | some i => if 1 ≤ i then some (afterParen.drop (i + 1)) else none
      | none => none
    | _ => none

/-- The lazy group `(.*?)` of the submodule pattern: extend the group one
character at a time (never across a newline), first trying at each
position to close with a quote followed by `matchParenTail`. -/
def lazyGroup (acc : List Char) : List Char → Option (List Char × List Char)
  | [] => none
  | c :: rest =>
    if c = '\'' || c = '"' then
      match matchParenTail rest with
      | some rest' => some (acc.reverse, rest')
      | none =>
        if c = '\n' then none else lazyGroup (c :: acc) rest
    else if c = '\n' then none
    else lazyGroup (c :: acc) rest

/-- Attempt the full pattern `\s+['"](.*?)['"]\s+\(.+\)` anchored at the
start: maximal leading whitespace (at least one), an opening quote, the
lazy group, and the tail. -/
def matchSubmoduleAt (cs : List Char) : Option (List Char × List Char) :=
  let ws := cs.takeWhile pyWsChar
  if ws.isEmpty then none
  else
    match cs.drop ws.length with
    | c :: rest =>
      if c = '\'' || c = '"' then lazyGroup [] rest else none
    | [] => none

/-- The `re.findall` scan for the submodule pattern: leftmost,
non-overlapping matches, collecting the group. -/
def findSubmodulesAux (fuel : Nat) (cs : List Char) : List String :=
  match fuel with
  | 0 => []
  | fuel' + 1 =>
    match matchSubmoduleAt cs with
    | some (grp, rest) => String.mk grp :: findSubmodulesAux fuel' rest
    | none =>
      match cs with
      | [] => []
      | _ :: rest => findSubmodulesAux fuel' rest

/-- The `re.findall(r'\s+[\'"](.*?)[\'"]\s+\(.+\)', output)` of
`git_init_submodules`. -/
def findSubmodules (output : String) : List String :=
  findSubmodulesAux (output.toList.length + 1) output.toList

/-- Embeds `GitWorkingCopy.git_init_submodules`: run `git submodule init` and
collect the quoted names of the newly registered submodules from its
output. -/
def gitInitSubmodulesM (w : World) (st : WCState) : Res (List String) × WCState :=
  match gitRun w st ["submodule", "init"] (some st.source.path) with
  | (.ok out, st1) => (.ok (findSubmodules out), st1)
  | (.err e, st1) => (.err e, st1)
  | (.exited c, st1) => (.exited c, st1)

/-- Embeds `GitWorkingCopy.git_update_submodules`: the source builds `argv` but
then calls `self.git_run(arv, ...)` — the name `arv` is undefined, so
every call raises `NameError` before any invocation is issued. -/
def gitUpdateSubmodulesM (st : WCState) (submodule : String) :
    Res Unit × WCState :=
  let _argv := ["submodule", "update"] ++
    (if submodule ≠ "all" then [submodule] else [])
  (.err (.nameError "arv"), st)

/-- The `for submodule in initialized` loop shared by `git_checkout` and
`git_update`: update each newly registered submodule in turn, logging
after each. -/
def updateSubmodulesLoop (st : WCState) : List String → Res Unit × WCState
  | [] => (.ok (), st)
  | sm :: rest =>
    match gitUpdateSubmodulesM st sm with
    | (.ok _, st1) =>
      updateSubmodulesLoop
        { st1 with log := st1.log ++
          ["Initialized '" ++ st1.source.name ++ "' submodule at '" ++ sm ++
            "' with git."] } rest
    | (.err e, st1) => (.err e, st1)
    | (.exited c, st1) => (.exited c, st1)

/-! ### High-level operations -/

/-- Modelled from the spec: the keyword arguments the outer bootstrapping
tool passes to each operation (§6 operation surface) — the `force` and
`verbose` flags and the default `submodules` policy — together with the
outcome of `common.should_update`, the generic "should I update" policy
of the out-of-scope `common` module (§1 declares it a collaborator, not
reproduced), which `checkout` consults; it is supplied here as an opaque
boolean decision. -/
structure Kwargs where
  force : Bool := false
  verbose : Bool := false
  submodules : String := "never"
  shouldUpdate : Bool := false
deriving DecidableEq, Repr

/-- Embeds `GitWorkingCopy.git_set_pushurl`. -/
def gitSetPushurlM (w : World) (st : WCState) : Res Unit × WCState :=
  match gitRun w st
      ["config", "remote." ++ upstreamName ++ ".pushurl",
        st.source.pushurl.getD ""] (some st.source.path) with
  | (.ok _, st1) => (.ok (), st1)
  | (.err e, st1) => (.err e, st1)
  | (.exited c, st1) => (.exited c, st1)

/-- The submodule phase shared by `git_checkout` (policies `always` and
`checkout`) and `git_update` (policy `always`): init, then update only
the newly registered ones. -/
def submodulePhase (w : World) (st : WCState) : Res Unit × WCState :=
  match gitInitSubmodulesM w st with
  | (.err e, st1) => (.err e, st1)
  | (.exited c, st1) => (.exited c, st1)
  | (.ok initialized, st1) => updateSubmodulesLoop st1 initialized

/-- The tail of `git_checkout` and `git_update`: return the aggregated
transcript when `verbose`. -/
def verboseReturn (st : WCState) (kw : Kwargs) : Res (Option String) × WCState :=
  if kw.verbose then (.ok (some (gitOutput st)), st) else (.ok none, st)

/-- Embeds `GitWorkingCopy.git_checkout`: skip (log only) when the path already
exists; otherwise clone (with optional depth and branch arguments),
switch to a requested rev, record a push URL, and run the submodule
phase under policy `always` or `checkout`. -/
def gitCheckoutM (w : World) (st : WCState) (kw : Kwargs) :
    Res (Option String) × WCState :=
  let name := st.source.name
  let path := st.source.path
  let url := st.source.url
  if w.pathExists path then
    (.ok none, { st with log := st.log ++
      ["Skipped cloning of existing package '" ++ name ++ "'."] })
  else
    let st0 := { st with log := st.log ++
      ["Cloned '" ++ name ++ "' with git from '" ++ url ++ "'."] }
    let args := ["clone", "--quiet"] ++
      (match st0.source.depth with
        | some d => ["--depth", d]
        | none => []) ++
      (match st0.source.branch with
        | some b => ["-b", b]
        | none => []) ++ [url, path]
    match gitRun w st0 args none with
    | (.err e, st1) => (.err e, st1)
    | (.exited c, st1) => (.exited c, st1)
    | (.ok _, st1) =>
      let afterRev :=
        if st1.source.rev.isSome then gitSwitchBranchM w st1 false
        else (.ok (), st1)
      match afterRev with
      | (.err e, st2) => (.err e, st2)
      | (.exited c, st2) => (.exited c, st2)
      | (.ok _, st2) =>
        let afterPush :=
          if st2.source.pushurl.isSome then gitSetPushurlM w st2
          else (.ok (), st2)
        match afterPush with
        | (.err e, st3) => (.err e, st3)
        | (.exited c, st3) => (.exited c, st3)
        | (.ok _, st3) =>
          let policy := st3.source.submodules.getD kw.submodules
          if policy = "always" || policy = "checkout" then
            match submodulePhase w st3 with
            | (.err e, st4) => (.err e, st4)
            | (.exited c, st4) => (.exited c, st4)
            | (.ok _, st4) => verboseReturn st4 kw
          else verboseReturn st3 kw

/-- The branch-positioning block of `git_update` (source lines 264-273):
switch to the rev when one is configured; switch and merge the remote
branch when a branch is; otherwise fall tolerantly back toward master
and merge, accepting a missing branch. -/
def gitUpdatePosition (w : World) (st : WCState) : Res Unit × WCState :=
  if st.source.rev.isSome then gitSwitchBranchM w st false
  else if st.source.branch.isSome then
    match gitSwitchBranchM w st false with
    | (.ok _, st2) => gitMergeRbranchM w st2 false
    | (.err e, st2) => (.err e, st2)
    | (.exited c, st2) => (.exited c, st2)
  else
    match gitSwitchBranchM w st true with
    | (.ok _, st2) => gitMergeRbranchM w st2 true
    | (.err e, st2) => (.err e, st2)
    | (.exited c, st2) => (.exited c, st2)

/-- Embeds `GitWorkingCopy.git_update`: fetch with pruning, position on
rev/branch (merging the remote branch when a branch is configured, or
tolerantly falling back toward master when neither is), and run the
submodule phase under policy `always`. -/
def gitUpdateM (w : World) (st : WCState) (kw : Kwargs) :
    Res (Option String) × WCState :=
  let st0 := { st with log := st.log ++
    ["Updated '" ++ st.source.name ++ "' with git."] }
  match gitRun w st0 ["fetch", "--prune"] (some st0.source.path) with
  | (.err e, st1) => (.err e, st1)
  | (.exited c, st1) => (.exited c, st1)
  | (.ok _, st1) =>
    match gitUpdatePosition w st1 with
    | (.err e, st2) => (.err e, st2)
    | (.exited c, st2) => (.exited c, st2)
    | (.ok _, st2) =>
      let policy := st2.source.submodules.getD kw.submodules
      if policy = "always" then
        match submodulePhase w st2 with
        | (.err e, st3) => (.err e, st3)
        | (.exited c, st3) => (.exited c, st3)
        | (.ok _, st3) => verboseReturn st3 kw
      else verboseReturn st2 kw

/-- Embeds `GitWorkingCopy.matches`: the configured URL appears verbatim among
the whitespace-separated tokens of `git remote show -n origin`. -/
def matchesM (w : World) (st : WCState) : Res Bool × WCState :=
  match gitRun w st ["remote", "show", "-n", upstreamName]
      (some st.source.path) with
  | (.ok out, st1) =>
    (.ok ((splitWsL out.toList).contains st1.source.url.toList), st1)
  | (.err e, st1) => (.err e, st1)
  | (.exited c, st1) => (.exited c, st1)

/-- The tail of `update` after the URL-match warning (source lines
330-333): refuse (raise `GitError`) on a non-clean tree unless forced,
auto-select the branch, then `git_update`. -/
def updateAfterMatches (w : World) (st : WCState) (kw : Kwargs)
    (name : String) : Res (Option String) × WCState :=
  match statusM w st with
  | (.err e, st2) => (.err e, st2)
  | (.exited c, st2) => (.exited c, st2)
  | (.ok stat, st2) =>
    if stat ≠ "clean" && !kw.force then
      (.err (.gitError ("Can't update package '" ++ name ++
        "' because it's dirty.")), st2)
    else
      match autoSelectBranchM w st2 with
      | (.err e, st3) => (.err e, st3)
      | (.exited c, st3) => (.exited c, st3)
      | (.ok _, st3) => gitUpdateM w st3 kw

/-- Embeds `GitWorkingCopy.update`: warn on a URL mismatch, refuse (raise
`GitError`) on a non-clean tree unless forced, auto-select the branch,
then `git_update`. -/
def updateM (w : World) (st : WCState) (kw : Kwargs) :
    Res (Option String) × WCState :=
  let name := st.source.name
  match matchesM w st with
  | (.err e, st1) => (.err e, st1)
  | (.exited c, st1) => (.exited c, st1)
  | (.ok m, st1) =>
    let st1' := if m then st1
      else { st1 with log := st1.log ++
        ["Can't update package '" ++ name ++ "' because its URL doesn't match."] }
    updateAfterMatches w st1' kw name

/-- Embeds `GitWorkingCopy.checkout`: auto-select the branch, then on an
existing path either delegate to `update`, report a skipped checkout
when the URL matches, or warn; clone via `git_checkout` otherwise. -/
def checkoutM (w : World) (st : WCState) (kw : Kwargs) :
    Res (Option String) × WCState :=
  let name := st.source.name
  match autoSelectBranchM w st with
  | (.err e, st1) => (.err e, st1)
  | (.exited c, st1) => (.exited c, st1)
  | (.ok _, st1) =>
    if w.pathExists st1.source.path then
      if kw.shouldUpdate then updateM w st1 kw
      else
        match matchesM w st1 with
        | (.err e, st2) => (.err e, st2)
        | (.exited c, st2) => (.exited c, st2)
        | (.ok true, st2) =>
          (.ok none, { st2 with log := st2.log ++
            ["Skipped checkout of existing package '" ++ name ++ "'."] })
        | (.ok false, st2) =>
          (.ok none, { st2 with log := st2.log ++
            ["Checkout URL for existing package '" ++ name ++ "' differs."] })
    else gitCheckoutM w st1 kw

/-- The push step of `new_feature` (lines 139-146): when the branch is
not on the remote yet, push it with upstream tracking; a `GitError` is
caught, logged, and turned into a `False` return. -/
def newFeaturePush (w : World) (st : WCState) (current : String)
    (isRemote : Bool) : Res Bool × WCState :=
  if !isRemote then
    match gitRun w st ["push", "--set-upstream", upstreamName, current]
        (some st.source.path) with
    | (.err (.gitError _), s) =>
      (.ok false, { s with log := s.log ++
        ["Could not push branch '" ++ current ++ "'."] })
    | (.err e, s) => (.err e, s)
    | (.exited c, s) => (.exited c, s)
    | (.ok _, s) =>
      (.ok true, { s with log := s.log ++
        ["Push branch '" ++ current ++ "'."] })
  else (.ok true, st)

/-- The ensure-checked-out step of `new_feature` (lines 132-138) followed
by the push step: when the working copy is not on `current`, check it
out; a `GitError` there is caught, logged, and turned into a `False`
return. -/
def newFeatureCheckoutThenPush (w : World) (st : WCState) (current : String)
    (isRemote : Bool) : Res Bool × WCState :=
  match gitCurrentBranchM w st (some st.source.path) with
  | (.err e, st1) => (.err e, st1)
  | (.exited c, st1) => (.exited c, st1)
  | (.ok cur2, st1) =>
    if cur2 ≠ some current then
      match gitRun w st1 ["checkout", current] (some st1.source.path) with
      | (.err (.gitError _), s) =>
        (.ok false, { s with log := s.log ++
          ["Could not checkout branch '" ++ current ++ "'."] })
      | (.err e, s) => (.err e, s)
      | (.exited c, s) => (.exited c, s)
      | (.ok _, s) => newFeaturePush w s current isRemote
    else newFeaturePush w st1 current isRemote

/-- Embeds `GitWorkingCopy.new_feature`: require being on a feature branch (a
current branch outside a non-empty preferred set), fetch or clone,
create the branch locally if missing (NOTE: the `except:` there logs and
then RE-RAISES — the `return False` on the following source line is
unreachable), ensure it is checked out, and push it when it is not on
the remote yet. -/
def newFeatureM (w : World) (st : WCState) (kw : Kwargs) :
    Res Bool × WCState :=
  match gitCurrentBranchM w st none with
  | (.err e, st1) => (.err e, st1)
  | (.exited c, st1) => (.exited c, st1)
  | (.ok currentOpt, st1) =>
    match currentOpt, st1.source.preferredBranches with
    | none, _ =>
      (.ok false, { st1 with log := st1.log ++
        ["You are not on a feature branch."] })
    | some _, none =>
      (.ok false, { st1 with log := st1.log ++
        ["You are not on a feature branch."] })
    | some current, some preferred =>
      if preferred.contains current then
        (.ok false, { st1 with log := st1.log ++
          ["You are not on a feature branch."] })
      else if preferred.length = 0 then
        (.ok false, { st1 with log := st1.log ++
          ["Did you already setup your branch?"] })
      else
        let path := st1.source.path
        let prepped :=
          if w.pathExists path then
            match gitRun w st1 ["fetch", "--prune"] (some path) with
            | (.ok _, s) => (Res.ok (), s)
            | (.err e, s) => (.err e, s)
            | (.exited c, s) => (.exited c, s)
          else
            match gitCheckoutM w st1 kw with
            | (.ok _, s) => (Res.ok (), s)
            | (.err e, s) => (.err e, s)
            | (.exited c, s) => (.exited c, s)
        match prepped with
        | (.err e, st2) => (.err e, st2)
        | (.exited c, st2) => (.exited c, st2)
        | (.ok _, st2) =>
          match gitBranchStatusM w st2 current with
          | (.err e, st3) => (.err e, st3)
          | (.exited c, st3) => (.exited c, st3)
          | (.ok (isLocal, isRemote), st3) =>
            let created :=
              if !isLocal then
                match remoteBranchPrefixM w st3 with
                | (.err e, st4) => (Res.err e, st4)
                | (.exited c, st4) => (.exited c, st4)
                | (.ok pfx, st4) =>
                  match gitRun w st4
                      ["branch", current, pfx ++ "/" ++ preferred.headD ""]
                      (some path) with
                  | (.ok _, st5) =>
                    (Res.ok (), { st5 with log := st5.log ++
                      ["Created branch '" ++ current ++ "'."] })
                  | (.err e, st5) =>
                    (Res.err e, { st5 with log := st5.log ++
                      ["Could not create branch '" ++ current ++ "'."] })
                  | (.exited c, st5) => (.exited c, st5)
              else (Res.ok (), st3)
            match created with
            | (.err e, st4) => (.err e, st4)
            | (.exited c, st4) => (.exited c, st4)
            | (.ok _, st4) => newFeatureCheckoutThenPush w st4 current isRemote

/-! ### Plumbing lemmas -/

theorem gitRun_snd (w : World) (st : WCState) (args : List String)
    (cwd : Option String) :
    (gitRun w st args cwd).snd =
      { st with
        trace := st.trace ++ [⟨args, cwd⟩],
        gitStdout := st.gitStdout ++ [(w.exec ⟨args, cwd⟩).stdout] } := by
  unfold gitRun
  dsimp only
  split <;> rfl

theorem gitRun_no_exit (w : World) (st : WCState) (args : List String)
    (cwd : Option String) (c : Nat) :
    (gitRun w st args cwd).fst ≠ .exited c := by
  unfold gitRun
  dsimp only
  split <;> simp

theorem gitRun_mem (w : World) (st : WCState) (args : List String)
    (cwd : Option String) {c : GitCmd} (h : c ∈ st.trace) :
    c ∈ (gitRun w st args cwd).snd.trace := by
  rw [gitRun_snd]
  exact List.mem_append_left _ h

theorem mem_snd_of {α : Type} {A : Res α × WCState} {r : Res α}
    {s : WCState} {c : GitCmd} (h : A = (r, s)) (hm : c ∈ A.snd.trace) :
    c ∈ s.trace := by
  rw [h] at hm
  exact hm

theorem gitVersionM_mem (w : World) (st : WCState) {c : GitCmd}
    (h : c ∈ st.trace) : c ∈ (gitVersionM w st).snd.trace := by
  unfold gitVersionM
  split
  · exact h
  · split
    next e st1 heq =>
      have h1 : c ∈ st1.trace := mem_snd_of heq (gitRun_mem w st _ _ h)
      exact h1
    next cc st1 heq =>
      have h1 : c ∈ st1.trace := mem_snd_of heq (gitRun_mem w st _ _ h)
      exact h1
    next out st1 heq =>
      have h1 : c ∈ st1.trace := mem_snd_of heq (gitRun_mem w st _ _ h)
      split
      · exact h1
      · split <;> exact h1

theorem gitRun_exit_absurd {w : World} {st : WCState} {args : List String}
    {cwd : Option String} {cc : Nat} {s : WCState}
    (heq : gitRun w st args cwd = (.exited cc, s)) : False :=
  gitRun_no_exit w st args cwd cc (by rw [heq])

theorem remoteBranchPrefixM_mem (w : World) (st : WCState) {c : GitCmd}
    (h : c ∈ st.trace) : c ∈ (remoteBranchPrefixM w st).snd.trace := by
  unfold remoteBranchPrefixM
  split
  next v st1 heq =>
    have h1 : c ∈ st1.trace := mem_snd_of heq (gitVersionM_mem w st h)
    exact h1
  next e st1 heq =>
    have h1 : c ∈ st1.trace := mem_snd_of heq (gitVersionM_mem w st h)
    exact h1
  next cc st1 heq =>
    have h1 : c ∈ st1.trace := mem_snd_of heq (gitVersionM_mem w st h)
    exact h1

theorem gitCurrentBranchM_mem (w : World) (st : WCState) (cwd : Option String)
    {c : GitCmd} (h : c ∈ st.trace) :
    c ∈ (gitCurrentBranchM w st cwd).snd.trace := by
  unfold gitCurrentBranchM
  split
  next out st1 heq =>
    have h1 : c ∈ st1.trace := mem_snd_of heq (gitRun_mem w st _ _ h)
    exact h1
  next e st1 heq =>
    have h1 : c ∈ st1.trace := mem_snd_of heq (gitRun_mem w st _ _ h)
    exact h1
  next cc st1 heq =>
    have h1 : c ∈ st1.trace := mem_snd_of heq (gitRun_mem w st _ _ h)
    exact h1

theorem gitBranchStatusM_mem (w : World) (st : WCState) (b : String)
    {c : GitCmd} (h : c ∈ st.trace) :
    c ∈ (gitBranchStatusM w st b).snd.trace := by
  unfold gitBranchStatusM
  split
  next e st1 heq =>
    have h1 : c ∈ st1.trace := mem_snd_of heq (gitRun_mem w st _ _ h)
    exact h1
  next cc st1 heq =>
    have h1 : c ∈ st1.trace := mem_snd_of heq (gitRun_mem w st _ _ h)
    exact h1
  next out st1 heq =>
    have h1 : c ∈ st1.trace := mem_snd_of heq (gitRun_mem w st _ _ h)
    dsimp only
    split
    next e st2 heq2 =>
      have h2 : c ∈ st2.trace := mem_snd_of heq2 (remoteBranchPrefixM_mem w st1 h1)
      exact h2
    next cc st2 heq2 =>
      have h2 : c ∈ st2.trace := mem_snd_of heq2 (remoteBranchPrefixM_mem w st1 h1)
      exact h2
    next pfx st2 heq2 =>
      have h2 : c ∈ st2.trace := mem_snd_of heq2 (remoteBranchPrefixM_mem w st1 h1)
      exact h2

theorem gitSwitchBranchM_mem (w : World) (st : WCState) (am : Bool)
    {c : GitCmd} (h : c ∈ st.trace) :
    c ∈ (gitSwitchBranchM w st am).snd.trace := by
  unfold gitSwitchBranchM
  try dsimp only
  split
  next e st1 heq =>
    have h1 : c ∈ st1.trace := mem_snd_of heq (gitBranchStatusM_mem w st _ h)
    exact h1
  next cc st1 heq =>
    have h1 : c ∈ st1.trace := mem_snd_of heq (gitBranchStatusM_mem w st _ h)
    exact h1
  next isLocal isRemote st1 heq =>
    have h1 : c ∈ st1.trace := mem_snd_of heq (gitBranchStatusM_mem w st _ h)
    try dsimp only
    split
    next rev hrev =>
      split
      next out st2 heq2 =>
        have h2 : c ∈ st2.trace := mem_snd_of heq2 (gitRun_mem w st1 _ _ h1)
        exact h2
      next e st2 heq2 =>
        have h2 : c ∈ st2.trace := mem_snd_of heq2 (gitRun_mem w st1 _ _ h1)
        exact h2
      next cc st2 heq2 =>
        have h2 : c ∈ st2.trace := mem_snd_of heq2 (gitRun_mem w st1 _ _ h1)
        exact h2
    next hrev =>
      split
      · split
        next out st2 heq2 =>
          have h2 : c ∈ st2.trace := mem_snd_of heq2 (gitRun_mem w st1 _ _ h1)
          exact h2
        next e st2 heq2 =>
          have h2 : c ∈ st2.trace := mem_snd_of heq2 (gitRun_mem w st1 _ _ h1)
          exact h2
        next cc st2 heq2 =>
          have h2 : c ∈ st2.trace := mem_snd_of heq2 (gitRun_mem w st1 _ _ h1)
          exact h2
      · split
        · split
          next e st2 heq2 =>
            have h2 : c ∈ st2.trace := mem_snd_of heq2 (remoteBranchPrefixM_mem w st1 h1)
            exact h2
          next cc st2 heq2 =>
            have h2 : c ∈ st2.trace := mem_snd_of heq2 (remoteBranchPrefixM_mem w st1 h1)
            exact h2
          next pfx st2 heq2 =>
            have h2 : c ∈ st2.trace := mem_snd_of heq2 (remoteBranchPrefixM_mem w st1 h1)
            split
            next out st3 heq3 =>
              have h3 : c ∈ st3.trace := mem_snd_of heq3 (gitRun_mem w st2 _ _ h2)
              exact h3
            next e st3 heq3 =>
              have h3 : c ∈ st3.trace := mem_snd_of heq3 (gitRun_mem w st2 _ _ h2)
              exact h3
            next cc st3 heq3 =>
              have h3 : c ∈ st3.trace := mem_snd_of heq3 (gitRun_mem w st2 _ _ h2)
              exact h3
        · split
          · exact h1
          · exact h1

theorem gitMergeRbranchM_mem (w : World) (st : WCState) (am : Bool)
    {c : GitCmd} (h : c ∈ st.trace) :
    c ∈ (gitMergeRbranchM w st am).snd.trace := by
  unfold gitMergeRbranchM
  try dsimp only
  split
  next e st1 heq =>
    have h1 : c ∈ st1.trace := mem_snd_of heq (gitBranchStatusM_mem w st _ h)
    exact h1
  next cc st1 heq =>
    have h1 : c ∈ st1.trace := mem_snd_of heq (gitBranchStatusM_mem w st _ h)
    exact h1
  next isLocal isRemote st1 heq =>
    have h1 : c ∈ st1.trace := mem_snd_of heq (gitBranchStatusM_mem w st _ h)
    try dsimp only
    split
    · split
      · exact h1
      · exact h1
    · split
      next e st2 heq2 =>
        have h2 : c ∈ st2.trace := mem_snd_of heq2 (remoteBranchPrefixM_mem w st1 h1)
        exact h2
      next cc st2 heq2 =>
        have h2 : c ∈ st2.trace := mem_snd_of heq2 (remoteBranchPrefixM_mem w st1 h1)
        exact h2
      next pfx st2 heq2 =>
        have h2 : c ∈ st2.trace := mem_snd_of heq2 (remoteBranchPrefixM_mem w st1 h1)
        split
        next out st3 heq3 =>
          have h3 : c ∈ st3.trace := mem_snd_of heq3 (gitRun_mem w st2 _ _ h2)
          exact h3
        next e st3 heq3 =>
          have h3 : c ∈ st3.trace := mem_snd_of heq3 (gitRun_mem w st2 _ _ h2)
          exact h3
        next cc st3 heq3 =>
          have h3 : c ∈ st3.trace := mem_snd_of heq3 (gitRun_mem w st2 _ _ h2)
          exact h3

theorem gitInitSubmodulesM_mem (w : World) (st : WCState)
    {c : GitCmd} (h : c ∈ st.trace) :
    c ∈ (gitInitSubmodulesM w st).snd.trace := by
  unfold gitInitSubmodulesM
  split
  next out st1 heq =>
    have h1 : c ∈ st1.trace := mem_snd_of heq (gitRun_mem w st _ _ h)
    exact h1
  next e st1 heq =>
    have h1 : c ∈ st1.trace := mem_snd_of heq (gitRun_mem w st _ _ h)
    exact h1
  next cc st1 heq =>
    have h1 : c ∈ st1.trace := mem_snd_of heq (gitRun_mem w st _ _ h)
    exact h1

theorem updateSubmodulesLoop_mem (st : WCState) (l : List String)
    {c : GitCmd} (h : c ∈ st.trace) :
    c ∈ (updateSubmodulesLoop st l).snd.trace := by
  cases l with
  | nil => exact h
  | cons sm rest => exact h

theorem submodulePhase_mem (w : World) (st : WCState)
    {c : GitCmd} (h : c ∈ st.trace) :
    c ∈ (submodulePhase w st).snd.trace := by
  unfold submodulePhase
  split
  next e st1 heq =>
    have h1 : c ∈ st1.trace := mem_snd_of heq (gitInitSubmodulesM_mem w st h)
    exact h1
  next cc st1 heq =>
    have h1 : c ∈ st1.trace := mem_snd_of heq (gitInitSubmodulesM_mem w st h)
    exact h1
  next l st1 heq =>
    have h1 : c ∈ st1.trace := mem_snd_of heq (gitInitSubmodulesM_mem w st h)
    exact updateSubmodulesLoop_mem st1 l h1

theorem verboseReturn_mem (st : WCState) (kw : Kwargs)
    {c : GitCmd} (h : c ∈ st.trace) :
    c ∈ (verboseReturn st kw).snd.trace := by
  unfold verboseReturn
  split <;> exact h

/-- The `git remote show -n origin` invocation issued by `matches`. -/
def remoteShowCmd (p : String) : GitCmd :=
  ⟨["remote", "show", "-n", upstreamName], some p⟩

/-- The `git status -s -b` invocation issued by `status`. -/
def statusQueryCmd (p : String) : GitCmd := ⟨["status", "-s", "-b"], some p⟩

/-- The `git fetch --prune` invocation issued by `git_update`. -/
def fetchCmd (p : String) : GitCmd := ⟨["fetch", "--prune"], some p⟩

theorem matchesM_eq (w : World) (st : WCState)
    (hrc : (w.exec (remoteShowCmd st.source.path)).returncode = 0) :
    matchesM w st =
      (.ok ((splitWsL (w.exec (remoteShowCmd st.source.path)).stdout.toList).contains
          st.source.url.toList),
        { st with
          trace := st.trace ++ [remoteShowCmd st.source.path],
          gitStdout := st.gitStdout ++
            [(w.exec (remoteShowCmd st.source.path)).stdout] }) := by
  unfold matchesM gitRun
  dsimp only
  have hrc2 : (w.exec ⟨["remote", "show", "-n", upstreamName],
      some st.source.path⟩).returncode = 0 := hrc
  rw [if_neg (by simp [hrc2])]
  rfl

theorem statusM_eq (w : World) (st : WCState)
    (hrc : (w.exec (statusQueryCmd st.source.path)).returncode = 0) :
    statusM w st =
      (.ok (statusClassify (w.exec (statusQueryCmd st.source.path)).stdout),
        { st with
          trace := st.trace ++ [statusQueryCmd st.source.path],
          gitStdout := st.gitStdout ++
            [(w.exec (statusQueryCmd st.source.path)).stdout] }) := by
  unfold statusM gitRun
  dsimp only
  have hrc2 : (w.exec ⟨["status", "-s", "-b"],
      some st.source.path⟩).returncode = 0 := hrc
  rw [if_neg (by simp [hrc2])]
  rfl

theorem source_of_gitRun_eq {w : World} {st : WCState} {args : List String}
    {cwd : Option String} {r : Res String} {s : WCState}
    (h : gitRun w st args cwd = (r, s)) : s.source = st.source := by
  have h2 := congrArg Prod.snd h
  rw [gitRun_snd] at h2
  dsimp only at h2
  rw [← h2]

theorem gitCurrentBranchM_ok (w : World) (st : WCState) (cwd : Option String) :
    ∃ r st', gitCurrentBranchM w st cwd = (.ok r, st') ∧
      st'.source = st.source := by
  unfold gitCurrentBranchM
  split
  next out st1 heq =>
    exact ⟨some (String.mk (stripL out.toList)), st1, rfl, source_of_gitRun_eq heq⟩
  next e st1 heq => exact ⟨none, st1, rfl, source_of_gitRun_eq heq⟩
  next cc st1 heq => exact absurd heq (fun hh => gitRun_exit_absurd hh)

theorem autoSelectBranchM_spec (w : World) (st : WCState) :
    ∃ st', autoSelectBranchM w st = (.ok (), st') ∧
      st'.source.path = st.source.path := by
  unfold autoSelectBranchM
  split
  · exact ⟨st, rfl, rfl⟩
  · exact ⟨st, rfl, rfl⟩
  next preferred =>
    obtain ⟨r, st', hok, hsrc⟩ := gitCurrentBranchM_ok w st none
    split
    next st1 heq =>
      have : st1.source = st.source := by
        rw [hok] at heq
        cases heq
        exact hsrc
      exact ⟨st1, rfl, by rw [this]⟩
    next current st1 heq =>
      have hs1 : st1.source = st.source := by
        rw [hok] at heq
        cases heq
        exact hsrc
      refine ⟨_, rfl, ?_⟩
      show st1.source.path = st.source.path
      rw [hs1]
    next e st1 heq =>
      rw [hok] at heq
      simp at heq
    next cc st1 heq =>
      rw [hok] at heq
      simp at heq

theorem gitRun_mem_self (w : World) (st : WCState) (args : List String)
    (cwd : Option String) : GitCmd.mk args cwd ∈ (gitRun w st args cwd).snd.trace := by
  rw [gitRun_snd]
  simp

theorem gitUpdatePosition_mem (w : World) (st : WCState)
    {c : GitCmd} (h : c ∈ st.trace) :
    c ∈ (gitUpdatePosition w st).snd.trace := by
  unfold gitUpdatePosition
  split
  · exact gitSwitchBranchM_mem w st false h
  · split
    · split
      next u st2 heq =>
        exact gitMergeRbranchM_mem w st2 false
          (mem_snd_of heq (gitSwitchBranchM_mem w st false h))
      next e st2 heq =>
        have h2 : c ∈ st2.trace := mem_snd_of heq (gitSwitchBranchM_mem w st false h)
        exact h2
      next cc st2 heq =>
        have h2 : c ∈ st2.trace := mem_snd_of heq (gitSwitchBranchM_mem w st false h)
        exact h2
    · split
      next u st2 heq =>
        exact gitMergeRbranchM_mem w st2 true
          (mem_snd_of heq (gitSwitchBranchM_mem w st true h))
      next e st2 heq =>
        have h2 : c ∈ st2.trace := mem_snd_of heq (gitSwitchBranchM_mem w st true h)
        exact h2
      next cc st2 heq =>
        have h2 : c ∈ st2.trace := mem_snd_of heq (gitSwitchBranchM_mem w st true h)
        exact h2

theorem gitUpdateM_fetch_mem (w : World) (st : WCState) (kw : Kwargs) :
    fetchCmd st.source.path ∈ (gitUpdateM w st kw).snd.trace := by
  unfold gitUpdateM
  dsimp only
  split
  next e st1 heq =>
    have h1 : fetchCmd st.source.path ∈ st1.trace :=
      mem_snd_of heq (gitRun_mem_self w _ _ _)
    exact h1
  next cc st1 heq =>
    have h1 : fetchCmd st.source.path ∈ st1.trace :=
      mem_snd_of heq (gitRun_mem_self w _ _ _)
    exact h1
  next out st1 heq =>
    have h1 : fetchCmd st.source.path ∈ st1.trace :=
      mem_snd_of heq (gitRun_mem_self w _ _ _)
    split
    next e st2 heq2 =>
      have h2 : fetchCmd st.source.path ∈ st2.trace :=
        mem_snd_of heq2 (gitUpdatePosition_mem w st1 h1)
      exact h2
    next cc st2 heq2 =>
      have h2 : fetchCmd st.source.path ∈ st2.trace :=
        mem_snd_of heq2 (gitUpdatePosition_mem w st1 h1)
      exact h2
    next u st2 heq2 =>
      have h2 : fetchCmd st.source.path ∈ st2.trace :=
        mem_snd_of heq2 (gitUpdatePosition_mem w st1 h1)
      split
      · split
        next e st3 heq3 =>
          have h3 : fetchCmd st.source.path ∈ st3.trace :=
            mem_snd_of heq3 (submodulePhase_mem w st2 h2)
          exact h3
        next cc st3 heq3 =>
          have h3 : fetchCmd st.source.path ∈ st3.trace :=
            mem_snd_of heq3 (submodulePhase_mem w st2 h2)
          exact h3
        next l st3 heq3 =>
          exact verboseReturn_mem st3 kw
            (mem_snd_of heq3 (submodulePhase_mem w st2 h2))
      · exact verboseReturn_mem st2 kw h2

/-! ### Witness fixtures -/

/-- A fixture source descriptor pinning a branch. -/
def srcPkg : Source :=
  { name := "pkg", path := "/tmp/pkg", url := "https://example/repo.git",
    branch := some "dev" }

/-- A fresh working-copy state over a source descriptor. -/
def st0 (src : Source) : WCState :=
  { source := src, gitStdout := [], versionCache := none, trace := [],
    log := [] }

/-- A world whose every invocation succeeds with a two-line short-status
report. -/
def wStatusDirty : World :=
  { exec := fun _ => ⟨0, "## master\n M foo.py", ""⟩,
    pathExists := fun _ => true }

/-! ### Claims -/

/-- C1: the status operation classifies the working tree by counting the
stripped output lines of `git status -s -b`: exactly one line not
containing the substring `ahead` yields `clean`, exactly one line
containing `ahead` yields `ahead`, and two or more lines yield `dirty`,
for every possible output text. -/
theorem status_classifies_by_line_count (w : World) (st : WCState)
    (hrc : (w.exec (statusQueryCmd st.source.path)).returncode = 0) :
    (∀ l, splitNl (stripL (w.exec (statusQueryCmd st.source.path)).stdout.toList) = [l] →
        (hasSubL "ahead".toList l = false → (statusM w st).fst = .ok "clean") ∧
        (hasSubL "ahead".toList l = true → (statusM w st).fst = .ok "ahead")) ∧
    (2 ≤ (splitNl (stripL (w.exec (statusQueryCmd st.source.path)).stdout.toList)).length →
      (statusM w st).fst = .ok "dirty") := by
  rw [statusM_eq w st hrc]
  unfold statusClassify
  dsimp only
  generalize (w.exec (statusQueryCmd st.source.path)).stdout = out
  generalize splitNl (stripL out.toList) = lines
  constructor
  · rintro l rfl
    constructor
    · intro hna
      have hna2 : hasSubL ['a', 'h', 'e', 'a', 'd'] l = false := hna
      simp [hna2]
    · intro ha
      have ha2 : hasSubL ['a', 'h', 'e', 'a', 'd'] l = true := ha
      simp [ha2]
  · intro h2
    have hne : ¬ lines.length = 1 := by omega
    simp [hne]

/-- Witness for C1 at a concrete two-line status output. -/
theorem status_classifies_by_line_count_witness :
    (statusM wStatusDirty (st0 srcPkg)).fst = .ok "dirty" :=
  (status_classifies_by_line_count wStatusDirty (st0 srcPkg)
    (by decide)).2 (by decide)

theorem updateAfterMatches_dirty (w : World) (st2 : WCState) (kw : Kwargs)
    (nm p : String) (hp : st2.source.path = p)
    (hs : (w.exec (statusQueryCmd p)).returncode = 0)
    (hd : statusClassify (w.exec (statusQueryCmd p)).stdout = "dirty")
    (hnf : kw.force = false) :
    (updateAfterMatches w st2 kw nm).fst =
        .err (.gitError ("Can't update package '" ++ nm ++
          "' because it's dirty.")) ∧
    (updateAfterMatches w st2 kw nm).snd.trace =
        st2.trace ++ [statusQueryCmd p] := by
  subst hp
  unfold updateAfterMatches
  rw [statusM_eq w st2 hs]
  dsimp only
  rw [hd, hnf]
  simp

theorem updateAfterMatches_force_fetch (w : World) (st2 : WCState)
    (kw : Kwargs) (nm p : String) (hp : st2.source.path = p)
    (hs : (w.exec (statusQueryCmd p)).returncode = 0)
    (hf : kw.force = true) :
    fetchCmd p ∈ (updateAfterMatches w st2 kw nm).snd.trace := by
  subst hp
  unfold updateAfterMatches
  rw [statusM_eq w st2 hs]
  dsimp only
  rw [hf]
  simp only [Bool.not_true, Bool.and_false, Bool.false_eq_true, if_false]
  obtain ⟨st3, hauto, hpath⟩ := autoSelectBranchM_spec w
    { st2 with
      trace := st2.trace ++ [statusQueryCmd st2.source.path],
      gitStdout := st2.gitStdout ++
        [(w.exec (statusQueryCmd st2.source.path)).stdout] }
  rw [hauto]
  have hmem := gitUpdateM_fetch_mem w st3 kw
  rw [hpath] at hmem
  exact hmem

/-- C2: for every source whose working tree status is dirty, calling
`update` without `force` raises a `GitError` before any fetch invocation
is issued (the only invocations made are the URL-match query and the
status query), and calling `update` with `force` proceeds past the
dirtiness check to the fetch. -/
theorem update_dirty_gate (w : World) (st : WCState) (kw kwF : Kwargs)
    (htr : st.trace = [])
    (hm : (w.exec (remoteShowCmd st.source.path)).returncode = 0)
    (hs : (w.exec (statusQueryCmd st.source.path)).returncode = 0)
    (hd : statusClassify (w.exec (statusQueryCmd st.source.path)).stdout = "dirty")
    (hnf : kw.force = false) (hf : kwF.force = true) :
    (updateM w st kw).fst =
        .err (.gitError ("Can't update package '" ++ st.source.name ++
          "' because it's dirty.")) ∧
    (∀ c ∈ (updateM w st kw).snd.trace, c.args ≠ ["fetch", "--prune"]) ∧
    fetchCmd st.source.path ∈ (updateM w st kwF).snd.trace := by
  have hred : ∀ (kx : Kwargs), ∃ stx,
      updateM w st kx = updateAfterMatches w stx kx st.source.name ∧
      stx.source.path = st.source.path ∧
      stx.trace = st.trace ++ [remoteShowCmd st.source.path] := by
    intro kx
    unfold updateM
    dsimp only
    rw [matchesM_eq w st hm]
    dsimp only
    split
    · exact ⟨_, rfl, rfl, rfl⟩
    · exact ⟨_, rfl, rfl, rfl⟩
  obtain ⟨stA, hA, hApath, hAtrace⟩ := hred kw
  obtain ⟨stB, hB, hBpath, hBtrace⟩ := hred kwF
  rw [hA, hB]
  obtain ⟨h1, h2⟩ := updateAfterMatches_dirty w stA kw st.source.name
    st.source.path hApath hs hd hnf
  refine ⟨h1, ?_, ?_⟩
  · intro c hc
    rw [h2, hAtrace, htr] at hc
    simp at hc
    rcases hc with rfl | rfl <;> simp [remoteShowCmd, statusQueryCmd, upstreamName]
  · exact updateAfterMatches_force_fetch w stB kwF st.source.name
      st.source.path hBpath hs hf

/-- Witness for C2: a concrete dirty working tree; without force `update`
raises, with force the fetch is issued. -/
theorem update_dirty_gate_witness :
    (updateM wStatusDirty (st0 srcPkg) {}).fst =
        .err (.gitError ("Can't update package '" ++ "pkg" ++
          "' because it's dirty.")) ∧
    fetchCmd "/tmp/pkg" ∈
      (updateM wStatusDirty (st0 srcPkg) { force := true }).snd.trace := by
  obtain ⟨h1, h2, h3⟩ := update_dirty_gate wStatusDirty (st0 srcPkg) {}
    { force := true } rfl (by decide) (by decide) (by decide) rfl rfl
  exact ⟨h1, h3⟩

theorem gitRun_ok_eq (w : World) (st : WCState) (args : List String)
    (cwd : Option String) (hrc : (w.exec ⟨args, cwd⟩).returncode = 0) :
    gitRun w st args cwd = (.ok (w.exec ⟨args, cwd⟩).stdout,
      { st with
        trace := st.trace ++ [⟨args, cwd⟩],
        gitStdout := st.gitStdout ++ [(w.exec ⟨args, cwd⟩).stdout] }) := by
  unfold gitRun
  dsimp only
  rw [if_neg (by simp [hrc])]

theorem gitRun_err_eq (w : World) (st : WCState) (args : List String)
    (cwd : Option String) (hrc : (w.exec ⟨args, cwd⟩).returncode ≠ 0) :
    gitRun w st args cwd = (.err (.gitError (joinArgs args ++ "\n" ++
        (w.exec ⟨args, cwd⟩).stdout ++ "\n" ++ (w.exec ⟨args, cwd⟩).stderr)),
      { st with
        trace := st.trace ++ [⟨args, cwd⟩],
        gitStdout := st.gitStdout ++ [(w.exec ⟨args, cwd⟩).stdout] }) := by
  unfold gitRun
  dsimp only
  rw [if_pos hrc]

theorem gitVersionM_eq (w : World) (st : WCState)
    (hc : st.versionCache = none)
    (hrc : (w.exec ⟨["--version"], none⟩).returncode = 0) :
    (gitVersionM w st).fst =
      match findVersion (w.exec ⟨["--version"], none⟩).stdout.toList with
      | none => .exited 1
      | some v => if natListLt v [1, 5] then .exited 1 else .ok v := by
  unfold gitVersionM
  rw [hc]
  dsimp only
  rw [gitRun_ok_eq w st _ _ hrc]
  dsimp only
  cases hfv : findVersion (w.exec ⟨["--version"], none⟩).stdout.toList with
  | none => rfl
  | some v =>
    dsimp only
    split <;> rfl

theorem gitVersionM_runfail (w : World) (st : WCState)
    (hc : st.versionCache = none)
    (hrc : (w.exec ⟨["--version"], none⟩).returncode ≠ 0) :
    (gitVersionM w st).fst = .exited 1 := by
  unfold gitVersionM
  rw [hc]
  dsimp only
  rw [gitRun_err_eq w st _ _ hrc]

/-- C4: for any source descriptor carrying the spec's keys (in
particular no undocumented `revision` alias) with both `rev` and
`branch` set, construction terminates the process (exit status 1) after
logging, having issued zero external tool invocations. -/
theorem construct_rev_branch_conflict_exits (src : Source)
    (hb : src.branch.isSome = true) (hr : src.rev.isSome = true)
    (hrev : src.revision = none) :
    (initGWC src).fst = .exited 1 ∧ (initGWC src).snd.fst = [] ∧
      (initGWC src).snd.snd ≠ [] := by
  unfold initGWC
  rw [hrev]
  simp [hr, hb]

/-- A descriptor with both `rev` and `branch` set. -/
def srcConflict : Source :=
  { name := "pkg", path := "/tmp/pkg", url := "https://example/repo.git",
    rev := some "abc123", branch := some "dev" }

/-- Witness for C4 at a concrete descriptor with both `rev` and
`branch`. -/
theorem construct_rev_branch_conflict_exits_witness :
    (initGWC srcConflict).fst = .exited 1 :=
  (construct_rev_branch_conflict_exits srcConflict rfl rfl rfl).1

/-- C10: the constructor accepts an undocumented `revision` alias for
`rev`: with only `revision` present it is renamed to `rev` in the
descriptor before the branch/rev conflict check (so `revision` together
with `branch` still exits), and with both `rev` and `revision` present
it raises a `ValueError` rather than the process-terminating exit. -/
theorem revision_alias_constructor (src : Source) (r : String) :
    (src.rev = none → src.revision = some r →
      (src.branch = none →
        initGWC src = (.ok { src with rev := some r, revision := none },
          [], [])) ∧
      (src.branch.isSome = true → (initGWC src).fst = .exited 1)) ∧
    (src.rev.isSome = true → src.revision.isSome = true →
      (initGWC src).fst = .err (.valueError ("The source definition of '" ++
        src.name ++ "' contains duplicate revision options."))) := by
  constructor
  · intro hr hrev
    constructor
    · intro hb
      unfold initGWC
      rw [hr, hrev, hb]
      simp
    · intro hb
      unfold initGWC
      rw [hr, hrev]
      simp [hb]
  · intro hr hrev
    unfold initGWC
    simp [hr, hrev]

/-- A descriptor using only the `revision` alias. -/
def srcRevisionOnly : Source :=
  { name := "pkg", path := "/tmp/pkg", url := "u", revision := some "r1" }

/-- A descriptor with both `rev` and its `revision` alias. -/
def srcRevDuplicate : Source :=
  { name := "pkg", path := "/tmp/pkg", url := "u", rev := some "r0",
    revision := some "r1" }

/-- Witness for C10: the alias is renamed on a concrete descriptor, and
a duplicate `rev`/`revision` pair raises `ValueError`. -/
theorem revision_alias_constructor_witness :
    initGWC srcRevisionOnly =
      (.ok { srcRevisionOnly with rev := some "r1", revision := none },
        [], []) ∧
    (initGWC srcRevDuplicate).fst =
      .err (.valueError ("The source definition of '" ++ "pkg" ++
        "' contains duplicate revision options.")) := by
  constructor
  · exact ((revision_alias_constructor srcRevisionOnly "r1").1 rfl rfl).1 rfl
  · exact (revision_alias_constructor srcRevDuplicate "r1").2 rfl rfl

/-- C5: version detection parses the tool's self-reported version string
into a 2-4 integer tuple: `git version 1.6.3` yields `(1,6,3)` and
`git version 2.30.1.2` yields `(2,30,1,2)`; for `git version 1.4.0`
(and any parsed version below `(1,5)`) the process terminates as
unsupported, and for any string the regex does not match the process
terminates. -/
theorem git_version_detection (w : World) (st : WCState)
    (hc : st.versionCache = none)
    (hrc : (w.exec ⟨["--version"], none⟩).returncode = 0) :
    findVersion "git version 1.6.3".toList = some [1, 6, 3] ∧
    findVersion "git version 2.30.1.2".toList = some [2, 30, 1, 2] ∧
    ((w.exec ⟨["--version"], none⟩).stdout = "git version 1.4.0" →
      (gitVersionM w st).fst = .exited 1) ∧
    (findVersion (w.exec ⟨["--version"], none⟩).stdout.toList = none →
      (gitVersionM w st).fst = .exited 1) ∧
    (∀ v, findVersion (w.exec ⟨["--version"], none⟩).stdout.toList = some v →
      natListLt v [1, 5] = true → (gitVersionM w st).fst = .exited 1) := by
  refine ⟨by decide, by decide, ?_, ?_, ?_⟩
  · intro hout
    rw [gitVersionM_eq w st hc hrc, hout]
    decide
  · intro hnone
    rw [gitVersionM_eq w st hc hrc, hnone]
  · intro v hv hlt
    rw [gitVersionM_eq w st hc hrc, hv]
    dsimp only
    rw [hlt]
    simp

/-- A world whose `--version` output is unparsable. -/
def wVersionBad : World :=
  { exec := fun _ => ⟨0, "nonsense", ""⟩, pathExists := fun _ => true }

/-- Witness for C5: an unparsable version string terminates the
process. -/
theorem git_version_detection_witness :
    (gitVersionM wVersionBad (st0 srcPkg)).fst = .exited 1 :=
  (git_version_detection wVersionBad (st0 srcPkg) rfl
    (by decide)).2.2.2.1 (by decide)

theorem gitCurrentBranchM_ok_eq (w : World) (st : WCState)
    (cwd : Option String)
    (hrc : (w.exec ⟨["symbolic-ref", "--short", "HEAD"], cwd⟩).returncode = 0) :
    gitCurrentBranchM w st cwd =
      (.ok (some (String.mk (stripL
          (w.exec ⟨["symbolic-ref", "--short", "HEAD"], cwd⟩).stdout.toList))),
        { st with
          trace := st.trace ++ [⟨["symbolic-ref", "--short", "HEAD"], cwd⟩],
          gitStdout := st.gitStdout ++
            [(w.exec ⟨["symbolic-ref", "--short", "HEAD"], cwd⟩).stdout] }) := by
  unfold gitCurrentBranchM
  rw [gitRun_ok_eq w st _ _ hrc]

/-- A descriptor pinning a rev, with a preferred-branches list and no
branch. -/
def srcRevPreferred : Source :=
  { name := "pkg", path := "/tmp/pkg", url := "u", rev := some "abc123",
    preferredBranches := some ["main", "release"] }

/-- A descriptor with only a preferred-branches list. -/
def srcPreferredOnly : Source :=
  { name := "pkg", path := "/tmp/pkg", url := "u",
    preferredBranches := some ["main", "release"] }

/-- A world whose current branch reads `feature-x`. -/
def wFeatureBranch : World :=
  { exec := fun c =>
      if c.args = ["symbolic-ref", "--short", "HEAD"] then
        ⟨0, "feature-x\n", ""⟩
      else ⟨0, "", ""⟩,
    pathExists := fun _ => true }

/-- Counterexample to C7 as stated: on a descriptor that pins a `rev`
(with no branch and a preferred-branches list) auto-branch-selection
does NOT leave the descriptor unchanged — it still overwrites the
`branch` key. -/
theorem auto_select_branch_rev_counterexample :
    (st0 srcRevPreferred).source.rev = some "abc123" ∧
    (st0 srcRevPreferred).source.branch = none ∧
    (autoSelectBranchM wFeatureBranch (st0 srcRevPreferred)).snd.source.branch
      = some "main" := by
  refine ⟨rfl, rfl, ?_⟩
  decide

/-- C7 amended: auto-branch-selection leaves the source descriptor
unchanged whenever the descriptor already pins a branch or has no
preferred-branches list (a pinned `rev` does NOT suppress the step);
otherwise, when the current branch reads successfully and is not among
the non-empty preferred set, it overwrites the descriptor's `branch`
key with the first preferred entry. -/
theorem auto_select_branch_amended (w : World) (st : WCState) :
    (st.source.branch.isSome = true ∨ st.source.preferredBranches = none →
      autoSelectBranchM w st = (.ok (), st)) ∧
    (∀ l, st.source.branch = none → st.source.preferredBranches = some l →
      (w.exec ⟨["symbolic-ref", "--short", "HEAD"], none⟩).returncode = 0 →
      l.contains (String.mk (stripL
        (w.exec ⟨["symbolic-ref", "--short", "HEAD"], none⟩).stdout.toList))
        = false →
      l ≠ [] →
      (autoSelectBranchM w st).snd.source.branch = some (l.headD "")) := by
  constructor
  · intro h
    unfold autoSelectBranchM
    split
    · rfl
    · rfl
    · simp_all
  · intro l hb hp hrc hnc hne
    rcases l with _ | ⟨a, as⟩
    · exact absurd rfl hne
    · unfold autoSelectBranchM
      rw [hb, hp]
      dsimp only
      rw [gitCurrentBranchM_ok_eq w st none hrc]
      dsimp only
      rw [hnc]
      simp

/-- Witness for the amended C7: with no pinned branch, preferred list
`["main", "release"]` and current branch `feature-x`, the branch is
rewritten to `main`. -/
theorem auto_select_branch_amended_witness :
    (autoSelectBranchM wFeatureBranch (st0 srcPreferredOnly)).snd.source.branch
      = some "main" :=
  (auto_select_branch_amended wFeatureBranch (st0 srcPreferredOnly)).2
    ["main", "release"] rfl rfl (by decide) (by decide) (by decide)

/-- A world where every path exists and every invocation succeeds with
empty output. -/
def wAllExists : World :=
  { exec := fun _ => ⟨0, "", ""⟩, pathExists := fun _ => true }

/-- Counterexample to C6 as stated: the public `checkout` operation on an
existing path (outer should-update policy false) still issues the
URL-match query `git remote show -n origin` — one real external tool
invocation, not zero. -/
theorem checkout_existing_counterexample :
    (checkoutM wAllExists (st0 srcPkg) {}).snd.trace =
      [remoteShowCmd "/tmp/pkg"] := by
  decide

/-- C6 amended: the clone step `git_checkout` on an already existing
target path is a no-op beyond a log message — zero external tool
invocations, no state change but the log; the public `checkout`
operation, by contrast, may still issue the URL-match query or delegate
to `update` on an existing path. -/
theorem git_checkout_existing_noop (w : World) (st : WCState) (kw : Kwargs)
    (hex : w.pathExists st.source.path = true) :
    gitCheckoutM w st kw = (.ok none, { st with log := st.log ++
      ["Skipped cloning of existing package '" ++ st.source.name ++ "'."] }) := by
  unfold gitCheckoutM
  dsimp only
  rw [hex]
  simp

/-- Witness for the amended C6 at a concrete existing path. -/
theorem git_checkout_existing_noop_witness :
    gitCheckoutM wAllExists (st0 srcPkg) {} = (.ok none,
      { st0 srcPkg with log :=
        ["Skipped cloning of existing package '" ++ "pkg" ++ "'."] }) :=
  git_checkout_existing_noop wAllExists (st0 srcPkg) {} rfl

/-- A descriptor requesting submodule handling at checkout. -/
def srcSub : Source :=
  { name := "pkg", path := "/tmp/pkg", url := "u",
    submodules := some "checkout" }

/-- A world for a fresh clone whose `submodule init` registers two
submodules. -/
def wSubmodules : World :=
  { exec := fun c =>
      if c.args = ["submodule", "init"] then
        ⟨0, "Submodule 'a' (https://x/a) registered\nSubmodule 'b' (https://x/b) registered", ""⟩
      else ⟨0, "", ""⟩,
    pathExists := fun _ => false }

/-- C8 (code bug at `git.py` line 350): the init output names two newly
registered submodules, yet not a single `submodule update` invocation is
ever issued: `git_update_submodules` refers to the undefined name `arv`
(a typo for `argv`) and raises `NameError` on its first call, aborting
the checkout. -/
theorem submodule_update_nameerror :
    findSubmodules "Submodule 'a' (https://x/a) registered\nSubmodule 'b' (https://x/b) registered"
      = ["a", "b"] ∧
    (gitCheckoutM wSubmodules (st0 srcSub) {}).fst = .err (.nameError "arv") ∧
    ((gitCheckoutM wSubmodules (st0 srcSub) {}).snd.trace.filter
      (fun c => c.args.take 2 = ["submodule", "update"])).length = 0 := by
  refine ⟨by decide, by decide, by decide⟩

/-- A descriptor with a preferred-branches list for the feature-branch
bootstrap. -/
def srcFeature : Source :=
  { name := "pkg", path := "/tmp/pkg", url := "u",
    preferredBranches := some ["main"] }

/-- The bootstrap state with the git version already memoized. -/
def stFeature : WCState :=
  { st0 srcFeature with versionCache := some [2, 30, 1] }

/-- A world on feature branch `feature-x` (not yet local) where the
branch-create invocation fails. -/
def wBranchCreateFails : World :=
  { exec := fun c =>
      if c.args = ["branch", "feature-x", "remotes/origin/main"] then
        ⟨1, "", "boom"⟩
      else if c.args = ["symbolic-ref", "--short", "HEAD"] then
        ⟨0, "feature-x\n", ""⟩
      else if c.args = ["branch", "-a"] then
        ⟨0, "* master\n  remotes/origin/main", ""⟩
      else ⟨0, "", ""⟩,
    pathExists := fun _ => true }

/-- C9 (code bug at `git.py` lines 127-131): when the branch-create step
of `new_feature` fails, the bare `except:` logs the named failure and
then RE-RAISES the exception (the `return False` after the `raise` is
unreachable), so the operation propagates a `GitError` instead of
returning false. -/
theorem new_feature_branch_create_raises :
    (newFeatureM wBranchCreateFails stFeature {}).fst.isGitError = true ∧
    (newFeatureM wBranchCreateFails stFeature {}).fst ≠ .ok false ∧
    (newFeatureM wBranchCreateFails stFeature {}).fst ≠ .ok true := by
  refine ⟨by decide, by decide, by decide⟩

theorem gitBranchStatusM_eq_cached (w : World) (st : WCState) (b : String)
    (v : List Nat) (hv : st.versionCache = some v)
    (hrc : (w.exec ⟨["branch", "-a"], some st.source.path⟩).returncode = 0) :
    gitBranchStatusM w st b =
      (.ok ((splitNl (w.exec ⟨["branch", "-a"], some st.source.path⟩).stdout.toList).any
          (isLocalLine b),
        (splitNl (w.exec ⟨["branch", "-a"], some st.source.path⟩).stdout.toList).any
          (isRemoteLine (if natListLt v [1, 6, 3] then upstreamName
            else "remotes/" ++ upstreamName) b)),
        { st with
          trace := st.trace ++ [⟨["branch", "-a"], some st.source.path⟩],
          gitStdout := st.gitStdout ++
            [(w.exec ⟨["branch", "-a"], some st.source.path⟩).stdout] }) := by
  unfold gitBranchStatusM
  rw [gitRun_ok_eq w st _ _ hrc]
  dsimp only
  unfold remoteBranchPrefixM gitVersionM
  dsimp only
  rw [hv]

theorem statusM_no_exit (w : World) (st : WCState) (cc : Nat) :
    (statusM w st).fst ≠ .exited cc := by
  unfold statusM
  split
  · simp
  · simp
  next cc2 st1 heq => exact (gitRun_exit_absurd heq).elim

theorem matchesM_no_exit (w : World) (st : WCState) (cc : Nat) :
    (matchesM w st).fst ≠ .exited cc := by
  unfold matchesM
  split
  · simp
  · simp
  next cc2 st1 heq => exact (gitRun_exit_absurd heq).elim

/-- A state over `srcPkg` with the git version already memoized. -/
def stMerge : WCState :=
  { st0 srcPkg with versionCache := some [2, 30, 1] }

/-- A world whose branch listing names neither `dev` locally nor
remotely. -/
def wNoBranch : World :=
  { exec := fun c =>
      if c.args = ["branch", "-a"] then ⟨0, "* master", ""⟩
      else ⟨0, "", ""⟩,
    pathExists := fun _ => true }

/-- Counterexample to C3 as stated: `git_merge_rbranch` on a missing
branch with `accept_missing` false terminates the whole process with
exit status 1 — a third process-exit site beyond version detection and
the rev+branch configuration conflict (the trace shows the only
invocation was the branch listing, so version detection was never even
consulted: the version was already memoized). -/
theorem merge_missing_branch_exits_counterexample :
    (gitMergeRbranchM wNoBranch stMerge false).fst = .exited 1 ∧
    (gitMergeRbranchM wNoBranch stMerge false).snd.trace =
      [⟨["branch", "-a"], some "/tmp/pkg"⟩] := by
  refine ⟨by decide, by decide⟩

/-- C3 amended: process termination has exactly three sites, not two:
version detection (invocation failure, unparsable output, or a version
below 1.5), the rev+branch conflict at construction, and — missing from
the claim — `git_merge_rbranch` when the branch is not both local and
remote and missing is not accepted.  Elsewhere failures raise typed
errors: `git_run`, `status` and `matches` never exit the process. -/
theorem process_exit_contract_amended (w : World) (st : WCState)
    (v : List Nat) (hv : st.versionCache = some v)
    (hrc : (w.exec ⟨["branch", "-a"], some st.source.path⟩).returncode = 0) :
    (∀ args cwd cc, (gitRun w st args cwd).fst ≠ .exited cc) ∧
    (∀ cc, (statusM w st).fst ≠ .exited cc) ∧
    (∀ cc, (matchesM w st).fst ≠ .exited cc) ∧
    (∀ src : Source, src.revision = none →
      ((initGWC src).fst = .exited 1 ↔
        src.branch.isSome = true ∧ src.rev.isSome = true)) ∧
    (∀ st2 : WCState, st2.versionCache = none →
      ((gitVersionM w st2).fst = .exited 1 ↔
        ((w.exec ⟨["--version"], none⟩).returncode ≠ 0 ∨
         findVersion (w.exec ⟨["--version"], none⟩).stdout.toList = none ∨
         (∃ vv, findVersion (w.exec ⟨["--version"], none⟩).stdout.toList
            = some vv ∧ natListLt vv [1, 5] = true)))) ∧
    (∀ am, (gitMergeRbranchM w st am).fst = .exited 1 ↔
      (am = false ∧
        ¬((splitNl (w.exec ⟨["branch", "-a"], some st.source.path⟩).stdout.toList).any
            (isLocalLine (st.source.branch.getD "master")) = true ∧
          (splitNl (w.exec ⟨["branch", "-a"], some st.source.path⟩).stdout.toList).any
            (isRemoteLine (if natListLt v [1, 6, 3] then upstreamName
              else "remotes/" ++ upstreamName)
              (st.source.branch.getD "master")) = true))) := by
  refine ⟨fun args cwd cc => gitRun_no_exit w st args cwd cc,
    fun cc => statusM_no_exit w st cc,
    fun cc => matchesM_no_exit w st cc, ?_, ?_, ?_⟩
  · intro src hrev
    unfold initGWC
    rw [hrev]
    simp only [Option.isSome_none, Bool.and_false, Bool.false_eq_true,
      if_false]
    try dsimp only
    split
    next hcond =>
      simp only [Bool.and_eq_true] at hcond
      simp [hcond]
    next hcond =>
      simp only [Bool.and_eq_true] at hcond
      constructor
      · intro h
        simp at h
      · intro h
        exact absurd ⟨h.1, h.2⟩ hcond
  · intro st2 h2c
    by_cases hrc0 : (w.exec ⟨["--version"], none⟩).returncode = 0
    · rw [gitVersionM_eq w st2 h2c hrc0]
      cases hfv : findVersion (w.exec ⟨["--version"], none⟩).stdout.toList with
      | none => simp
      | some vv =>
        dsimp only
        split
        next hlt =>
          simp only [true_iff]
          exact Or.inr (Or.inr ⟨vv, rfl, hlt⟩)
        next hlt =>
          constructor
          · intro h
            simp at h
          · rintro (h | h | ⟨vv2, hvv2, hlt2⟩)
            · exact absurd hrc0 h
            · simp at h
            · rw [Option.some_inj] at hvv2
              subst hvv2
              exact absurd hlt2 hlt
    · rw [gitVersionM_runfail w st2 h2c hrc0]
      simp [hrc0]
  · intro am
    unfold gitMergeRbranchM
    dsimp only
    rw [gitBranchStatusM_eq_cached w st (st.source.branch.getD "master") v hv hrc]
    dsimp only
    generalize hP : (if natListLt v [1, 6, 3] then upstreamName
      else "remotes/" ++ upstreamName) = P
    generalize hL : (splitNl (w.exec ⟨["branch", "-a"],
      some st.source.path⟩).stdout.toList).any
        (isLocalLine (st.source.branch.getD "master")) = L
    generalize hR : (splitNl (w.exec ⟨["branch", "-a"],
      some st.source.path⟩).stdout.toList).any
        (isRemoteLine P (st.source.branch.getD "master")) = R
    cases am <;> cases L <;> cases R <;> simp <;>
      (unfold remoteBranchPrefixM gitVersionM
       dsimp only
       rw [hv]
       dsimp only
       split
       · simp
       · simp
       next cc3 st3 heq3 => exact (gitRun_exit_absurd heq3).elim)

/-- Witness for the amended C3: the merge-helper exit characterization
instantiated at a concrete world with a missing branch. -/
theorem process_exit_contract_amended_witness :
    (gitMergeRbranchM wNoBranch stMerge false).fst = .exited 1 := by
  have h := (process_exit_contract_amended wNoBranch stMerge [2, 30, 1]
    rfl (by decide)).2.2.2.2.2 false
  exact h.mpr ⟨rfl, by decide⟩

end MrDeveloperGit
